import Mathlib

/-!
Shallow embedding of the document/tab state machine of `src/main.rs`
(an iced-based multi-document text editor prototype).

Modelling choices:
* `PathBuf` is modelled as `String`; `text_editor::Content` is modelled by its
  text snapshot (`String`), since the dispatcher only ever replaces it wholesale,
  resets it to empty, or feeds it an opaque `text_editor::Action`.
* A `text_editor::Action` is modelled by the pair of its `is_edit()` flag and
  the function it applies to the text snapshot (`content.perform(action)`).
* `io::ErrorKind` is opaque; it is modelled as `Nat`.
* `highlighter::Theme` is opaque; it is modelled as `Nat` (SolarizedDark = 0).
* `Command<Message>` values returned by `update` are modelled by the `Cmd`
  type below, recording which asynchronous operation (if any) was scheduled.
* Rust's `&mut self.fragments[self.fragment_index]` (line 82) panics when the
  index is out of range; `update` therefore returns `Option (Editor × Cmd)`,
  with `none` standing for that panic.  The reachability invariant (claim C9)
  shows the panic never fires from the initial state.
-/

/-- `FragmentContent` of `src/main.rs` (lines 33-38): one open document. -/
structure FragmentContent where
  file : Option String
  content : String
  is_loading : Bool
  is_dirty : Bool
deriving Repr, DecidableEq

/-- `Editor` of `src/main.rs` (lines 27-31): the application state. -/
structure Editor where
  theme : Nat
  fragment_index : Nat
  fragments : List FragmentContent
deriving Repr, DecidableEq

/-- `Error` of `src/main.rs` (lines 284-288). -/
inductive Error where
  | DialogClosed : Error
  | IoError (kind : Nat) : Error
deriving Repr, DecidableEq

/-- `Message` of `src/main.rs` (lines 40-52).  `ActionPerformed` carries the
`is_edit()` flag of the action and its effect on the text snapshot. -/
inductive Message where
  | ActionPerformed (isEdit : Bool) (apply : String → String) : Message
  | ThemeSelected (theme : Nat) : Message
  | NewFile : Message
  | OpenFile : Message
  | FileOpened (result : Except Error (String × String)) : Message
  | SaveFile : Message
  | FileSaved (result : Except Error String) : Message
  | TabSelected (index : Nat) : Message
  | TabClosed (index : Nat) : Message
  | TabNew : Message

/-- The asynchronous work scheduled by one `update` call (the
`Command<Message>` it returns). -/
inductive Cmd where
  | none : Cmd
  | performLoadFile (path : String) : Cmd
  | performOpenFile : Cmd
  | performSaveFile (path : Option String) (contents : String) : Cmd
deriving Repr, DecidableEq

/-- `default_file()` of `src/main.rs` (lines 290-292). -/
def default_file : String := "CARGO_MANIFEST_DIR/src/main.rs"

/-- `Editor::new` of `src/main.rs` (lines 60-75): one fragment with no file,
empty content, `is_loading = true`, `is_dirty = false`; active index 0; a load
of the default file is scheduled. -/
def Editor.new : Editor × Cmd :=
  ({ theme := 0
     fragment_index := 0
     fragments := [{ file := none, content := "", is_loading := true, is_dirty := false }] },
   Cmd.performLoadFile default_file)

def initEditor : Editor := Editor.new.1

/-- Write-back of the mutably borrowed active fragment: the Rust code mutates
`self.fragments[self.fragment_index]` in place; here the updated fragment is
stored back at the same position. -/
def Editor.setActive (e : Editor) (f : FragmentContent) : Editor :=
  { e with fragments := e.fragments.set e.fragment_index f }

/-- `Editor::update` of `src/main.rs` (lines 81-164).  Line 82 indexes
`self.fragments[self.fragment_index]` for every message; an out-of-range
index is the `none` (panic) case.  Branches that mutate nothing return the
state unchanged, exactly as the Rust code leaves the borrowed fragment
untouched there. -/
def Editor.update (e : Editor) (m : Message) : Option (Editor × Cmd) :=
  match e.fragments[e.fragment_index]? with
  | Option.none => Option.none
  | some fragment =>
    match m with
    | .ActionPerformed isEdit apply =>
        some (e.setActive { fragment with
                is_dirty := fragment.is_dirty || isEdit
                content := apply fragment.content },
              Cmd.none)
    | .ThemeSelected theme =>
        some ({ e with theme := theme }, Cmd.none)
    | .NewFile =>
        if fragment.is_loading then
          some (e, Cmd.none)
        else
          some (e.setActive { fragment with file := none, content := "" }, Cmd.none)
    | .OpenFile =>
        if fragment.is_loading then
          some (e, Cmd.none)
        else
          some (e.setActive { fragment with is_loading := true }, Cmd.performOpenFile)
    | .FileOpened result =>
        match result with
        | .ok (path, contents) =>
            some (e.setActive { fragment with
                    is_loading := false
                    is_dirty := false
                    file := some path
                    content := contents },
                  Cmd.none)
        | .error _ =>
            some (e.setActive { fragment with is_loading := false, is_dirty := false },
                  Cmd.none)
    | .SaveFile =>
        if fragment.is_loading then
          some (e, Cmd.none)
        else
          some (e.setActive { fragment with is_loading := true },
                Cmd.performSaveFile fragment.file fragment.content)
    | .FileSaved result =>
        match result with
        | .ok path =>
            some (e.setActive { fragment with
                    is_loading := false
                    file := some path
                    is_dirty := false },
                  Cmd.none)
        | .error _ =>
            some (e.setActive { fragment with is_loading := false }, Cmd.none)
    | .TabSelected _ =>
        some (e, Cmd.none)
    | .TabClosed _ =>
        some (e, Cmd.none)
    | .TabNew =>
        let fragments2 := e.fragments ++
          [{ file := none, content := "", is_loading := true, is_dirty := false }]
        some ({ e with fragments := fragments2, fragment_index := fragments2.length - 1 },
              Cmd.none)

/-- Iterated `update`: process a list of messages in arrival order, discarding
the scheduled commands; `none` means some step panicked. -/
def steps : Editor → List Message → Option Editor
  | e, [] => some e
  | e, m :: ms =>
    match e.update m with
    | some (e2, _) => steps e2 ms
    | Option.none => Option.none

/-- `save_file` of `src/main.rs` (lines 313-334).  The external collaborators
are passed as parameters: `pick_save` is the outcome of the save-location
picker (`none` = user cancelled) and `write_text` the outcome of
`tokio::fs::write` for a given path and contents. -/
def save_file (path : Option String) (contents : String)
    (pick_save : Option String) (write_text : String → String → Except Nat Unit) :
    Except Error String :=
  match path with
  | some p =>
      match write_text p contents with
      | .ok _ => .ok p
      | .error k => .error (.IoError k)
  | none =>
      match pick_save with
      | none => .error .DialogClosed
      | some p =>
          match write_text p contents with
          | .ok _ => .ok p
          | .error k => .error (.IoError k)

/-- The reachability invariant of the editor state: the fragment collection is
non-empty and the active index is in range. -/
def Editor.invariant (e : Editor) : Prop :=
  1 ≤ e.fragments.length ∧ e.fragment_index < e.fragments.length

/-! ### Helper lemmas -/

theorem set_eq_self_of_getElem_some {α : Type} (l : List α) (i : Nat) (a : α)
    (h : l[i]? = some a) : l.set i a = l := by
  induction l generalizing i with
  | nil => simp at h
  | cons x xs ih =>
    cases i with
    | zero => simp at h; simp [List.set, h]
    | succ n => simp only [List.getElem?_cons_succ] at h; simp [List.set, ih n h]

/-! ### Claims -/

/-- C1: the claim states that `FileOpened`/`FileSaved` completions are applied
to the document whose index was captured at scheduling time.  The code instead
indexes `self.fragments[self.fragment_index]` when the completion is processed
(line 82 of `src/main.rs`).  Concretely: after the initial load completes,
tab 0 schedules an `OpenFile`; the user opens a new tab (which becomes active)
before the load finishes; the `FileOpened(Ok)` completion is then applied to
the new tab 1, while the originating tab 0 keeps `is_loading = true` and never
receives the file. -/
theorem completion_routed_to_active_not_originating :
    steps initEditor
      [Message.FileOpened (.ok ("main.rs", "orig")), Message.OpenFile, Message.TabNew,
       Message.FileOpened (.ok ("a.txt", "hello"))] =
      some ⟨0, 1, [⟨some "main.rs", "orig", true, false⟩,
                   ⟨some "a.txt", "hello", false, false⟩]⟩ := by
  rfl

/-- C2: the claim states that `TabSelected(i)` with a valid `i` sets the active
index to `i`.  The code's handler (lines 146-148 of `src/main.rs`) is
`Command::none()` only: after `TabNew` the active index is 1, and processing
`TabSelected 0` leaves the whole state unchanged with active index still 1. -/
theorem tabSelected_ignores_index :
    steps initEditor [Message.TabNew] =
      some ⟨0, 1, [⟨none, "", true, false⟩, ⟨none, "", true, false⟩]⟩ ∧
    Editor.update ⟨0, 1, [⟨none, "", true, false⟩, ⟨none, "", true, false⟩]⟩
        (Message.TabSelected 0) =
      some (⟨0, 1, [⟨none, "", true, false⟩, ⟨none, "", true, false⟩]⟩, Cmd.none) := by
  exact ⟨rfl, rfl⟩

/-- C3: the claim states that `TabClosed(i)` removes the document at index `i`.
The code's handler (lines 149-151 of `src/main.rs`) is `Command::none()` only:
on a 2-tab state, `TabClosed 0` leaves both documents in place (length still
2) and the state entirely unchanged. -/
theorem tabClosed_removes_nothing :
    steps initEditor [Message.TabNew] =
      some ⟨0, 1, [⟨none, "", true, false⟩, ⟨none, "", true, false⟩]⟩ ∧
    Editor.update ⟨0, 1, [⟨none, "", true, false⟩, ⟨none, "", true, false⟩]⟩
        (Message.TabClosed 0) =
      some (⟨0, 1, [⟨none, "", true, false⟩, ⟨none, "", true, false⟩]⟩, Cmd.none) ∧
    (⟨0, 1, [⟨none, "", true, false⟩, ⟨none, "", true, false⟩]⟩ : Editor).fragments.length
      = 2 := by
  exact ⟨rfl, rfl, rfl⟩

/-- C4: the claim states that the document appended by `TabNew` is in the Idle
state (`is_loading == false`).  The code (lines 152-162 of `src/main.rs`)
constructs the new `FragmentContent` with `is_loading: true` although no load
is scheduled for it (`Command::none()` is returned): `TabNew` on the 1-tab
initial state yields 2 tabs, active index 1, and the new document is
`⟨none, "", is_loading := true, is_dirty := false⟩`. -/
theorem tabNew_spawns_loading_document :
    steps initEditor [Message.TabNew] =
      some ⟨0, 1, [⟨none, "", true, false⟩, ⟨none, "", true, false⟩]⟩ ∧
    (⟨0, 1, [⟨none, "", true, false⟩, ⟨none, "", true, false⟩]⟩ : Editor).fragments[1]? =
      some ⟨none, "", true, false⟩ := by
  exact ⟨rfl, rfl⟩

/-- C5 counterexample: the claim states that `FileOpened` with an `Err` result
leaves `is_dirty` exactly as it was.  In the code (lines 113-115 of
`src/main.rs`) `fragment.is_dirty = false` is executed before the result is
inspected.  Concretely: load the default file, make an edit (`is_dirty`
becomes true), request `OpenFile`, and let it fail with `DialogClosed`:
before the failing completion the document is dirty, after it the document is
clean. -/
theorem failed_open_clears_dirty_flag :
    steps initEditor
      [Message.FileOpened (.ok ("m.rs", "x")), Message.ActionPerformed true (fun s => s),
       Message.OpenFile] =
      some ⟨0, 0, [⟨some "m.rs", "x", true, true⟩]⟩ ∧
    steps initEditor
      [Message.FileOpened (.ok ("m.rs", "x")), Message.ActionPerformed true (fun s => s),
       Message.OpenFile, Message.FileOpened (.error Error.DialogClosed)] =
      some ⟨0, 0, [⟨some "m.rs", "x", false, false⟩]⟩ := by
  exact ⟨rfl, rfl⟩

/-- C5 amended: processing `FileOpened` with an `Err` result clears
`is_loading` and also unconditionally resets `is_dirty` to `false`, leaving
the path, the buffer content, and every other document unchanged. -/
theorem fileOpened_err_clears_loading_and_dirty (e : Editor) (frag : FragmentContent)
    (err : Error) (h : e.fragments[e.fragment_index]? = some frag) :
    e.update (Message.FileOpened (.error err)) =
      some (e.setActive { frag with is_loading := false, is_dirty := false }, Cmd.none) := by
  unfold Editor.update
  rw [h]

theorem fileOpened_err_clears_loading_and_dirty_witness :
    (⟨0, 0, [⟨some "m.rs", "x", true, true⟩]⟩ : Editor).fragments[
        (⟨0, 0, [⟨some "m.rs", "x", true, true⟩]⟩ : Editor).fragment_index]? =
      some ⟨some "m.rs", "x", true, true⟩ ∧
    Editor.update ⟨0, 0, [⟨some "m.rs", "x", true, true⟩]⟩
        (Message.FileOpened (.error Error.DialogClosed)) =
      some (Editor.setActive ⟨0, 0, [⟨some "m.rs", "x", true, true⟩]⟩
              ⟨some "m.rs", "x", false, false⟩, Cmd.none) :=
  ⟨rfl, fileOpened_err_clears_loading_and_dirty
          ⟨0, 0, [⟨some "m.rs", "x", true, true⟩]⟩
          ⟨some "m.rs", "x", true, true⟩ Error.DialogClosed rfl⟩

/-- C6 counterexample: the claim states that `NewFile` leaves the document in
the Idle(clean) state, `is_dirty == false`.  The code (lines 96-103 of
`src/main.rs`) resets `file` and `content` but never touches `is_dirty`.
Concretely: load a file, make an edit (`is_dirty` becomes true), then process
`NewFile`: the path is `None` and the buffer empty, but `is_dirty` is still
`true`. -/
theorem newFile_keeps_dirty_flag :
    steps initEditor
      [Message.FileOpened (.ok ("m.rs", "x")), Message.ActionPerformed true (fun s => s),
       Message.NewFile] =
      some ⟨0, 0, [⟨none, "", false, true⟩]⟩ := by
  rfl

/-- C6 amended: processing `NewFile` on an active document that is not loading
resets the path to `None` and the buffer to empty, leaves `is_loading` false,
and leaves `is_dirty` unchanged (a previously dirty document stays dirty). -/
theorem newFile_resets_path_buffer_keeps_dirty (e : Editor) (frag : FragmentContent)
    (h : e.fragments[e.fragment_index]? = some frag) (hl : frag.is_loading = false) :
    e.update Message.NewFile =
      some (e.setActive { frag with file := none, content := "" }, Cmd.none) := by
  unfold Editor.update
  rw [h]
  simp [hl]

theorem newFile_resets_path_buffer_keeps_dirty_witness :
    (⟨0, 0, [⟨some "m.rs", "x", false, true⟩]⟩ : Editor).fragments[
        (⟨0, 0, [⟨some "m.rs", "x", false, true⟩]⟩ : Editor).fragment_index]? =
      some ⟨some "m.rs", "x", false, true⟩ ∧
    (FragmentContent.is_loading ⟨some "m.rs", "x", false, true⟩ = false) ∧
    Editor.update ⟨0, 0, [⟨some "m.rs", "x", false, true⟩]⟩ Message.NewFile =
      some (Editor.setActive ⟨0, 0, [⟨some "m.rs", "x", false, true⟩]⟩
              ⟨none, "", false, true⟩, Cmd.none) :=
  ⟨rfl, rfl, newFile_resets_path_buffer_keeps_dirty
               ⟨0, 0, [⟨some "m.rs", "x", false, true⟩]⟩
               ⟨some "m.rs", "x", false, true⟩ rfl rfl⟩

/-- C7: processing `OpenFile` or `SaveFile` while the active document has
`is_loading == true` returns the state unchanged and schedules no command
(lines 104-112 and 124-135 of `src/main.rs`). -/
theorem openSave_noop_while_loading (e : Editor) (frag : FragmentContent)
    (h : e.fragments[e.fragment_index]? = some frag) (hl : frag.is_loading = true) :
    e.update Message.OpenFile = some (e, Cmd.none) ∧
    e.update Message.SaveFile = some (e, Cmd.none) := by
  unfold Editor.update
  rw [h]
  simp [hl]

theorem openSave_noop_while_loading_witness :
    initEditor.fragments[initEditor.fragment_index]? = some ⟨none, "", true, false⟩ ∧
    (initEditor.update Message.OpenFile = some (initEditor, Cmd.none) ∧
     initEditor.update Message.SaveFile = some (initEditor, Cmd.none)) :=
  ⟨rfl, openSave_noop_while_loading initEditor ⟨none, "", true, false⟩ rfl rfl⟩

/-- C8: a `SaveFile` request on a non-loading document with `path == None`
schedules `save_file(None, contents)`; a cancelled save-location picker makes
that operation return `Err(DialogClosed)`, and processing the resulting
`FileSaved(Err(DialogClosed))` returns the editor to exactly the state before
the request: `is_loading` false again, `is_dirty`, path and buffer content
untouched (lines 124-145 and 313-334 of `src/main.rs`). -/
theorem saveFile_dialogClosed_roundtrip (e : Editor) (frag : FragmentContent)
    (write_text : String → String → Except Nat Unit)
    (h : e.fragments[e.fragment_index]? = some frag)
    (hl : frag.is_loading = false) (hp : frag.file = none) :
    save_file frag.file frag.content none write_text = .error Error.DialogClosed ∧
    e.update Message.SaveFile =
      some (e.setActive { frag with is_loading := true },
            Cmd.performSaveFile none frag.content) ∧
    (e.setActive { frag with is_loading := true }).update
        (Message.FileSaved (.error Error.DialogClosed)) = some (e, Cmd.none) := by
  obtain ⟨ff, fc, flo, fdi⟩ := frag
  simp only at hl hp
  subst hl hp
  have hi : e.fragment_index < e.fragments.length := (List.getElem?_eq_some.mp h).1
  refine ⟨rfl, ?_, ?_⟩
  · unfold Editor.update
    rw [h]
    rfl
  · have h1 : (e.setActive ⟨none, fc, true, fdi⟩).fragments[
        (e.setActive ⟨none, fc, true, fdi⟩).fragment_index]? = some ⟨none, fc, true, fdi⟩ := by
      show (e.fragments.set e.fragment_index _)[e.fragment_index]? = _
      rw [List.getElem?_set_self]
      exact hi
    have hfr : (e.fragments.set e.fragment_index ⟨none, fc, true, fdi⟩).set e.fragment_index ⟨none, fc, false, fdi⟩ = e.fragments := by
      rw [List.set_set]
      exact set_eq_self_of_getElem_some _ _ _ h
    have h2 : (e.setActive ⟨none, fc, true, fdi⟩).setActive ⟨none, fc, false, fdi⟩ = e := by
      show ({ e with fragments := (e.fragments.set e.fragment_index ⟨none, fc, true, fdi⟩).set e.fragment_index ⟨none, fc, false, fdi⟩ } : Editor) = e
      rw [hfr]
    have h3 : (e.setActive ⟨none, fc, true, fdi⟩).update
        (Message.FileSaved (.error Error.DialogClosed)) =
        some ((e.setActive ⟨none, fc, true, fdi⟩).setActive ⟨none, fc, false, fdi⟩, Cmd.none) := by
      unfold Editor.update
      rw [h1]
    rw [h3, h2]

theorem saveFile_dialogClosed_roundtrip_witness :
    (⟨0, 0, [⟨none, "abc", false, true⟩]⟩ : Editor).fragments[
        (⟨0, 0, [⟨none, "abc", false, true⟩]⟩ : Editor).fragment_index]? =
      some ⟨none, "abc", false, true⟩ ∧
    (save_file none "abc" none (fun _ _ => .ok ()) = .error Error.DialogClosed ∧
     Editor.update ⟨0, 0, [⟨none, "abc", false, true⟩]⟩ Message.SaveFile =
       some (Editor.setActive ⟨0, 0, [⟨none, "abc", false, true⟩]⟩ ⟨none, "abc", true, true⟩,
             Cmd.performSaveFile none "abc") ∧
     (Editor.setActive ⟨0, 0, [⟨none, "abc", false, true⟩]⟩ ⟨none, "abc", true, true⟩).update
         (Message.FileSaved (.error Error.DialogClosed)) =
       some (⟨0, 0, [⟨none, "abc", false, true⟩]⟩, Cmd.none)) :=
  ⟨rfl, saveFile_dialogClosed_roundtrip ⟨0, 0, [⟨none, "abc", false, true⟩]⟩
          ⟨none, "abc", false, true⟩ (fun _ _ => .ok ()) rfl rfl rfl⟩

/-- Every `update` from a state satisfying the invariant succeeds (the
indexing on line 82 of `src/main.rs` does not panic) and preserves the
invariant: `TabSelected` and `TabClosed` do not modify the collection or the
index, `TabNew` appends and points at the new last position, and every other
message only rewrites the active fragment in place. -/
theorem update_preserves_invariant (e : Editor) (m : Message) (h : e.invariant) :
    ∃ e2 c, e.update m = some (e2, c) ∧ e2.invariant := by
  obtain ⟨h1, h2⟩ := h
  have hget : e.fragments[e.fragment_index]? = some e.fragments[e.fragment_index] :=
    List.getElem?_eq_getElem h2
  unfold Editor.update
  rw [hget]
  cases m with
  | ActionPerformed isEdit apply =>
    exact ⟨_, _, rfl, by simp [Editor.setActive, Editor.invariant, h1, h2]⟩
  | ThemeSelected theme =>
    exact ⟨_, _, rfl, ⟨h1, h2⟩⟩
  | NewFile =>
    by_cases hl : e.fragments[e.fragment_index].is_loading
    · exact ⟨e, Cmd.none, by simp [hl], ⟨h1, h2⟩⟩
    · refine ⟨e.setActive { e.fragments[e.fragment_index] with file := none, content := "" },
        Cmd.none, ?_, ?_⟩
      · simp [hl]
      · simp [Editor.setActive, Editor.invariant, h1, h2]
  | OpenFile =>
    by_cases hl : e.fragments[e.fragment_index].is_loading
    · exact ⟨e, Cmd.none, by simp [hl], ⟨h1, h2⟩⟩
    · refine ⟨e.setActive { e.fragments[e.fragment_index] with is_loading := true },
        Cmd.performOpenFile, ?_, ?_⟩
      · simp [hl]
      · simp [Editor.setActive, Editor.invariant, h1, h2]
  | FileOpened result =>
    cases result with
    | ok pc =>
      obtain ⟨p, c⟩ := pc
      exact ⟨_, _, rfl, by simp [Editor.setActive, Editor.invariant, h1, h2]⟩
    | error err =>
      exact ⟨_, _, rfl, by simp [Editor.setActive, Editor.invariant, h1, h2]⟩
  | SaveFile =>
    by_cases hl : e.fragments[e.fragment_index].is_loading
    · exact ⟨e, Cmd.none, by simp [hl], ⟨h1, h2⟩⟩
    · refine ⟨e.setActive { e.fragments[e.fragment_index] with is_loading := true },
        Cmd.performSaveFile e.fragments[e.fragment_index].file e.fragments[e.fragment_index].content, ?_, ?_⟩
      · simp [hl]
      · simp [Editor.setActive, Editor.invariant, h1, h2]
  | FileSaved result =>
    cases result with
    | ok p =>
      exact ⟨_, _, rfl, by simp [Editor.setActive, Editor.invariant, h1, h2]⟩
    | error err =>
      exact ⟨_, _, rfl, by simp [Editor.setActive, Editor.invariant, h1, h2]⟩
  | TabSelected i =>
    exact ⟨e, Cmd.none, rfl, ⟨h1, h2⟩⟩
  | TabClosed i =>
    exact ⟨e, Cmd.none, rfl, ⟨h1, h2⟩⟩
  | TabNew =>
    refine ⟨_, _, rfl, ?_⟩
    constructor
    · simp [Editor.invariant]
    · simp [Editor.invariant]

/-- Invariant preservation lifted to message sequences. -/
theorem steps_reach_invariant (ms : List Message) : ∀ e : Editor, e.invariant →
    ∃ e2, steps e ms = some e2 ∧ e2.invariant := by
  induction ms with
  | nil => exact fun e h => ⟨e, rfl, h⟩
  | cons m ms ih =>
    intro e h
    obtain ⟨e2, c, hu, h2⟩ := update_preserves_invariant e m h
    obtain ⟨e3, hs, h3⟩ := ih e2 h2
    exact ⟨e3, by simp [steps, hu, hs], h3⟩

/-- C9: from the initial state, any sequence of messages reaches a state in
which the fragment collection is non-empty and the active index is in range
(`0 <= fragment_index < fragments.length`), so the dispatcher's indexing of
the active document never fails. -/
theorem reachable_active_index_in_range (ms : List Message) :
    ∃ e2, steps initEditor ms = some e2 ∧
      1 ≤ e2.fragments.length ∧ e2.fragment_index < e2.fragments.length := by
  have h0 : initEditor.invariant := by
    unfold Editor.invariant
    exact ⟨by decide, by decide⟩
  obtain ⟨e2, hs, h1, h2⟩ := steps_reach_invariant ms initEditor h0
  exact ⟨e2, hs, h1, h2⟩

/-- A trace along which no `FileOpened`/`FileSaved` completion event is
processed while document `j` is the active one (the dispatcher routes
completions to `fragment_index` at processing time). -/
def avoidsCompletionAt (j : Nat) : Editor → List Message → Prop
  | _, [] => True
  | e, m :: ms =>
    ((∀ r, m = Message.FileOpened r → e.fragment_index ≠ j) ∧
     (∀ r, m = Message.FileSaved r → e.fragment_index ≠ j)) ∧
    (match e.update m with
     | some (e2, _) => avoidsCompletionAt j e2 ms
     | Option.none => True)

/-- One step of the persistence argument for C10: a document whose
`is_loading` is true keeps it true under any message that is not a
completion event processed while that document is active. -/
theorem loading_persists_step (e e2 : Editor) (c : Cmd) (m : Message) (j : Nat)
    (frag : FragmentContent) (hj : e.fragments[j]? = some frag) (hl : frag.is_loading = true)
    (hmo : ∀ r, m = Message.FileOpened r → e.fragment_index ≠ j)
    (hms : ∀ r, m = Message.FileSaved r → e.fragment_index ≠ j)
    (hstep : e.update m = some (e2, c)) :
    e2.fragments[j]?.map FragmentContent.is_loading = some true := by
  have hjlt : j < e.fragments.length := (List.getElem?_eq_some.mp hj).1
  have hsame : (e.fragments[j]?).map FragmentContent.is_loading = some true := by
    rw [hj]
    simp [hl]
  have key : ∀ (f2 : FragmentContent), (e.fragment_index = j → f2.is_loading = true) →
      ((e.setActive f2).fragments[j]?).map FragmentContent.is_loading = some true := by
    intro f2 hf2
    show ((e.fragments.set e.fragment_index f2)[j]?).map FragmentContent.is_loading = some true
    by_cases hij : e.fragment_index = j
    · subst hij
      rw [List.getElem?_set_self hjlt]
      simp [hf2 rfl]
    · rw [List.getElem?_set_ne hij]
      exact hsame
  unfold Editor.update at hstep
  cases hfi : e.fragments[e.fragment_index]? with
  | none => rw [hfi] at hstep; exact absurd hstep (by simp)
  | some fragment =>
    rw [hfi] at hstep
    have hfragj : e.fragment_index = j → fragment = frag := by
      intro hij
      rw [hij, hj] at hfi
      exact (Option.some_inj.mp hfi).symm
    cases m with
    | ActionPerformed isEdit apply =>
      simp only [Option.some.injEq, Prod.mk.injEq] at hstep
      obtain ⟨he2, -⟩ := hstep
      subst he2
      refine key _ (fun hij => ?_)
      show fragment.is_loading = true
      rw [hfragj hij]
      exact hl
    | ThemeSelected theme =>
      simp only [Option.some.injEq, Prod.mk.injEq] at hstep
      obtain ⟨he2, -⟩ := hstep
      subst he2
      exact hsame
    | NewFile =>
      by_cases hlo : fragment.is_loading = true
      · simp [hlo] at hstep
        obtain ⟨he2, -⟩ := hstep
        subst he2
        exact hsame
      · simp [hlo] at hstep
        obtain ⟨he2, -⟩ := hstep
        subst he2
        exact key _ (fun hij => absurd (by rw [hfragj hij]; exact hl) hlo)
    | OpenFile =>
      by_cases hlo : fragment.is_loading = true
      · simp [hlo] at hstep
        obtain ⟨he2, -⟩ := hstep
        subst he2
        exact hsame
      · simp [hlo] at hstep
        obtain ⟨he2, -⟩ := hstep
        subst he2
        exact key _ (fun _ => rfl)
    | FileOpened result =>
      have hij := hmo result rfl
      cases result with
      | ok pc =>
        obtain ⟨p, cc⟩ := pc
        simp only [Option.some.injEq, Prod.mk.injEq] at hstep
        obtain ⟨he2, -⟩ := hstep
        subst he2
        exact key _ (fun h => absurd h hij)
      | error err =>
        simp only [Option.some.injEq, Prod.mk.injEq] at hstep
        obtain ⟨he2, -⟩ := hstep
        subst he2
        exact key _ (fun h => absurd h hij)
    | SaveFile =>
      by_cases hlo : fragment.is_loading = true
      · simp [hlo] at hstep
        obtain ⟨he2, -⟩ := hstep
        subst he2
        exact hsame
      · simp [hlo] at hstep
        obtain ⟨he2, -⟩ := hstep
        subst he2
        exact key _ (fun _ => rfl)
    | FileSaved result =>
      have hij := hms result rfl
      cases result with
      | ok p =>
        simp only [Option.some.injEq, Prod.mk.injEq] at hstep
        obtain ⟨he2, -⟩ := hstep
        subst he2
        exact key _ (fun h => absurd h hij)
      | error err =>
        simp only [Option.some.injEq, Prod.mk.injEq] at hstep
        obtain ⟨he2, -⟩ := hstep
        subst he2
        exact key _ (fun h => absurd h hij)
    | TabSelected i =>
      simp only [Option.some.injEq, Prod.mk.injEq] at hstep
      obtain ⟨he2, -⟩ := hstep
      subst he2
      exact hsame
    | TabClosed i =>
      simp only [Option.some.injEq, Prod.mk.injEq] at hstep
      obtain ⟨he2, -⟩ := hstep
      subst he2
      exact hsame
    | TabNew =>
      simp only [Option.some.injEq, Prod.mk.injEq] at hstep
      obtain ⟨he2, -⟩ := hstep
      subst he2
      show ((e.fragments ++ _)[j]?).map FragmentContent.is_loading = some true
      rw [List.getElem?_append, if_pos hjlt]
      exact hsame

/-- The persistence argument of C10 lifted to whole traces. -/
theorem loading_persists (j : Nat) (ms : List Message) : ∀ (e e2 : Editor) (frag : FragmentContent),
    e.fragments[j]? = some frag → frag.is_loading = true →
    avoidsCompletionAt j e ms → steps e ms = some e2 →
    e2.fragments[j]?.map FragmentContent.is_loading = some true := by
  induction ms with
  | nil =>
    intro e e2 frag hj hl _ hs
    cases hs
    rw [hj]
    simp [hl]
  | cons m ms ih =>
    intro e e2 frag hj hl hav hs
    obtain ⟨⟨hmo, hms⟩, hav2⟩ := hav
    cases hstep : e.update m with
    | none =>
      rw [steps, hstep] at hs
      exact absurd hs (by simp)
    | some p =>
      obtain ⟨e1, c⟩ := p
      rw [steps, hstep] at hs
      rw [hstep] at hav2
      have hload := loading_persists_step e e1 c m j frag hj hl hmo hms hstep
      obtain ⟨frag1, hj1, hl1⟩ := Option.map_eq_some'.mp hload
      exact ih e1 e2 frag1 hj1 hl1 hav2 hs

/-- C10 amended: a document created by `TabNew` starts with
`is_loading == true` while no asynchronous operation is scheduled for it
(`Command::none()` is returned); its `is_loading` stays true along every
trace in which no `FileOpened`/`FileSaved` completion is processed while that
document is active; and while a loading document is active, `NewFile`,
`OpenFile` and `SaveFile` are no-ops.  (It does not stay true in *every*
reachable state: a completion misrouted to the tab clears it, see the
counterexample.) -/
theorem tabNew_loading_persistence :
    (∀ (e : Editor) (frag : FragmentContent),
       e.fragments[e.fragment_index]? = some frag →
       e.update Message.TabNew =
         some (Editor.mk e.theme e.fragments.length
           (e.fragments ++ [⟨none, "", true, false⟩]), Cmd.none)) ∧
    (∀ (j : Nat) (ms : List Message) (e e2 : Editor) (frag : FragmentContent),
       e.fragments[j]? = some frag → frag.is_loading = true →
       avoidsCompletionAt j e ms → steps e ms = some e2 →
       e2.fragments[j]?.map FragmentContent.is_loading = some true) ∧
    (∀ (e : Editor) (frag : FragmentContent),
       e.fragments[e.fragment_index]? = some frag → frag.is_loading = true →
       e.update Message.NewFile = some (e, Cmd.none) ∧
       e.update Message.OpenFile = some (e, Cmd.none) ∧
       e.update Message.SaveFile = some (e, Cmd.none)) := by
  refine ⟨?_, ?_, ?_⟩
  · intro e frag h
    unfold Editor.update
    rw [h]
    simp
  · exact fun j ms e e2 frag hj hl hav hs => loading_persists j ms e e2 frag hj hl hav hs
  · intro e frag h hl
    unfold Editor.update
    rw [h]
    simp [hl]

theorem tabNew_loading_persistence_witness :
    (initEditor.update Message.TabNew =
      some (Editor.mk initEditor.theme initEditor.fragments.length
        (initEditor.fragments ++ [⟨none, "", true, false⟩]), Cmd.none)) ∧
    (initEditor.fragments[0]?.map FragmentContent.is_loading = some true) ∧
    (initEditor.update Message.NewFile = some (initEditor, Cmd.none) ∧
     initEditor.update Message.OpenFile = some (initEditor, Cmd.none) ∧
     initEditor.update Message.SaveFile = some (initEditor, Cmd.none)) :=
  ⟨tabNew_loading_persistence.1 initEditor ⟨none, "", true, false⟩ rfl,
   tabNew_loading_persistence.2.1 0 [] initEditor initEditor ⟨none, "", true, false⟩
     rfl rfl trivial rfl,
   tabNew_loading_persistence.2.2 initEditor ⟨none, "", true, false⟩ rfl rfl⟩

/-- C10 counterexample: the claim states `is_loading` of a `TabNew` document
remains true in every subsequent reachable state.  It does not: the initial
state has the default-file load outstanding for tab 0 (`Editor::new`
schedules it); if `TabNew` is processed before that load completes, the new
tab 1 becomes active and receives the completion, so its `is_loading`
becomes false (and it is handed the default file's contents). -/
theorem tabNew_loading_cleared_by_misrouted_completion :
    steps initEditor [Message.TabNew, Message.FileOpened (.ok ("a.txt", "hello"))] =
      some ⟨0, 1, [⟨none, "", true, false⟩, ⟨some "a.txt", "hello", false, false⟩]⟩ := by
  rfl
